import Mathlib

set_option maxRecDepth 100000

/-!
Verification of the state-synchronization core of the `gta` repository:
server-side authoritative physics (`src/api/socket/index.js`), the socket
handlers (client input, vehicle enter/exit, disconnect), and the client-side
networking layer (`networking.js`: snapshot reconciliation and remote-entity
interpolation).

All JavaScript numbers are modelled as rationals (`ℚ`); `Math.sin`/`Math.cos`
are abstracted as an explicit pair of functions (`Trig`) so that every
definition stays executable.  JavaScript fields that may be `undefined`
(`input.sequence` on the synthesized neutral car input, the snapshot's
top-level `lastProcessedInput`) are modelled as `Option`.
-/

/-- 3-component position/velocity vector `{x, y, z}`. -/
structure Vec3 where
  x : ℚ
  y : ℚ
  z : ℚ
deriving DecidableEq, Repr

/-- Horizontal position `{x, z}` (the server's `lastP` anti-teleport record). -/
structure Vec2 where
  x : ℚ
  z : ℚ
deriving DecidableEq, Repr

/-- An input command as sent by the client (`sendInput` in networking.js):
key booleans plus a per-connection `sequence` number and the client frame's
`deltaTime`.  `sequence` is an `Option` because the server's car branch
synthesizes a neutral input object that carries no `sequence` property
(index.js line 103). -/
structure InputCmd where
  sequence : Option Nat
  deltaTime : ℚ
  forward : Bool
  backward : Bool
  left : Bool
  right : Bool
  shift : Bool
deriving DecidableEq, Repr

/-- Server-side player record (index.js lines 209-219). The `v` field is
created but never read or written by the server physics, as in the source. -/
structure Player where
  p : Vec3
  lastP : Vec2
  v : Vec3
  y : ℚ
  h : ℚ
  d : Bool
  vId : Option String
  pInputs : List InputCmd
  lastProcessedInput : Option Nat
deriving DecidableEq, Repr

/-- Server-side car record (index.js lines 15-23).  `pInputs` is declared in
the source but never used anywhere; it is kept for fidelity. -/
structure Car where
  p : Vec3
  y : ℚ
  s : ℚ
  dId : Option String
  pInputs : List InputCmd
  lastProcessedInput : Option Nat
deriving DecidableEq, Repr

/-- The server's in-memory game state (index.js lines 12-31).  JavaScript
objects indexed by id are modelled as association lists in insertion order;
the `rooms` bookkeeping carries no synchronization state and is omitted. -/
structure ServerState where
  players : List (String × Player)
  cars : List (String × Car)
deriving DecidableEq, Repr

/-- Abstraction of `Math.sin` / `Math.cos`: the development is parametric in
the trigonometric functions so that everything remains executable over `ℚ`. -/
structure Trig where
  sin : ℚ → ℚ
  cos : ℚ → ℚ

/-- A `Trig` that agrees with real sine/cosine at angle 0 (the only angle at
which concrete examples below evaluate them). -/
def tr0 : Trig := { sin := fun _ => 0, cos := fun _ => 1 }

/-- `MAX_PLAYER_SPEED = 10.5` (index.js line 7). -/
def MAX_PLAYER_SPEED : ℚ := 21/2

/-- `MAX_CAR_SPEED = 61` (index.js line 8). -/
def MAX_CAR_SPEED : ℚ := 61

/-- The single room's one car id, `'car1'`. -/
def car1Id : String := "car1"

/-- `Math.sign` on rationals. -/
def signQ (q : ℚ) : ℚ := if 0 < q then 1 else if q < 0 then -1 else 0

/-- Association-list lookup: `state.players[id]` / `state.cars[id]`. -/
def alookup {α : Type} (k : String) : List (String × α) → Option α
  | [] => none
  | e :: rest => if e.1 = k then some e.2 else alookup k rest

/-- Update the value stored at a key (in-place mutation of one entry). -/
def aupdate {α : Type} (k : String) (f : α → α) (l : List (String × α)) :
    List (String × α) :=
  l.map (fun e => if e.1 = k then (e.1, f e.2) else e)

/-- Remove a key (`delete state.players[id]`). -/
def aerase {α : Type} (k : String) (l : List (String × α)) :
    List (String × α) :=
  l.filter (fun e => e.1 ≠ k)

/-- Distinctness of the keys of an association list (JavaScript object keys). -/
def keysNodup {α : Type} (l : List (String × α)) : Prop :=
  (l.map Prod.fst).Nodup

/-- The yaw-rotated movement vector of one player input
(index.js lines 50-62): `(moveX, moveZ)`. -/
def moveDelta (tr : Trig) (pl : Player) (inp : InputCmd) : ℚ × ℚ :=
  let speed := MAX_PLAYER_SPEED * (if inp.shift then 2 else 1)
  let mvz := (if inp.forward then -speed else 0) + (if inp.backward then speed else 0)
  let mvx := (if inp.left then -speed else 0) + (if inp.right then speed else 0)
  let sinYaw := tr.sin pl.y
  let cosYaw := tr.cos pl.y
  (mvx * cosYaw - mvz * sinYaw, mvx * sinYaw + mvz * cosYaw)

/-- The position the player would move to before the anti-teleport check
(index.js lines 64-65): `p += move * deltaTime * 0.1`. -/
def proposedPos (tr : Trig) (dt : ℚ) (pl : Player) (inp : InputCmd) : ℚ × ℚ :=
  ((pl.p.x + (moveDelta tr pl inp).1 * dt * (1/10)),
   (pl.p.z + (moveDelta tr pl inp).2 * dt * (1/10)))

/-- The anti-teleport trigger (index.js lines 72-76).  The source compares
`sqrt(dx² + dz²) / deltaTime > MAX_PLAYER_SPEED * 2`; over nonnegative
`deltaTime` this is equivalent to the square-free form
`dx² + dz² > (MAX_PLAYER_SPEED * 2 * deltaTime)²` used here (both sides of
the source comparison are nonnegative). -/
def rejectsMove (tr : Trig) (dt : ℚ) (pl : Player) (inp : InputCmd) : Bool :=
  let pp := proposedPos tr dt pl inp
  decide ((pp.1 - pl.lastP.x)^2 + (pp.2 - pl.lastP.z)^2 >
          (MAX_PLAYER_SPEED * 2 * dt)^2)

/-- One iteration of the server's per-player input loop
(index.js lines 43-88): yaw-relative movement, gravity, anti-teleport
check with revert, `lastP` update and `lastProcessedInput` acknowledgment.
`dt` is the tick's deltaTime — the source uses the `simulatePhysics`
argument here, not `input.deltaTime`. -/
def playerApplyInput (tr : Trig) (dt : ℚ) (pl : Player) (inp : InputCmd) : Player :=
  let pp := proposedPos tr dt pl inp
  let py0 := if pl.p.y > 0 then pl.p.y + (-30) * dt else pl.p.y
  let py := if py0 < 0 then 0 else py0
  let px := if rejectsMove tr dt pl inp then pl.lastP.x else pp.1
  let pz := if rejectsMove tr dt pl inp then pl.lastP.z else pp.2
  { pl with p := ⟨px, py, pz⟩, lastP := ⟨px, pz⟩,
            lastProcessedInput := inp.sequence }

/-- The `while (player.pInputs.length > 0)` drain loop, as a recursion over
the queue being consumed. -/
def drainQueue (tr : Trig) (dt : ℚ) (pl : Player) : List InputCmd → Player
  | [] => pl
  | i :: rest => drainQueue tr dt (playerApplyInput tr dt pl i) rest

/-- Process all pending inputs of one non-driving player
(index.js lines 42-88): every queued command is shifted and applied,
leaving the queue empty. -/
def runPlayerQueue (tr : Trig) (dt : ℚ) (pl : Player) : Player :=
  drainQueue tr dt { pl with pInputs := [] } pl.pInputs

/-- The neutral input synthesized for a driven car whose driver queue is
empty (index.js line 103): the source object is
`{forward:false, backward:false, left:false, right:false}` — it carries no
`sequence` (hence `none`) and no `deltaTime`/`shift` property; the latter two
are never read on the car path, so `deltaTime` is set to an arbitrary 0. -/
def neutralCarInput : InputCmd :=
  { sequence := none, deltaTime := 0, forward := false, backward := false,
    left := false, right := false, shift := false }

/-- One car physics step (index.js lines 105-141): engine force minus
quadratic drag, speed clamp, speed-proportional steering above the 0.5
speed threshold, heading integration, ground constraint, and acknowledgment
of the consumed input's sequence. -/
def carStep (tr : Trig) (dt : ℚ) (inp : InputCmd) (car : Car) : Car :=
  let gasInput : ℚ := if inp.backward then -1 else if inp.forward then 1 else 0
  let resistance := car.s * (1/2) * car.s * (1/10)
  let totalForce := gasInput * 15000 - signQ car.s * resistance
  let acceleration := totalForce / 1000
  let s1 := car.s + acceleration * dt
  let s2 := min (max s1 (-MAX_CAR_SPEED)) MAX_CAR_SPEED
  let steerInput : ℚ := (if inp.left then 1 else 0) + (if inp.right then -1 else 0)
  let steeringAngle := steerInput * (6/10)
  let y1 := if abs s2 > 1/2 then car.y + (steeringAngle * s2 / (45/10) * (1/2)) * dt
            else car.y
  let dirX := tr.sin y1
  let dirZ := tr.cos y1
  { car with p := ⟨car.p.x + dirX * s2 * dt, 3/4, car.p.z + dirZ * s2 * dt⟩,
             y := y1, s := s2, lastProcessedInput := inp.sequence }

/-- Phase 1 of `simulatePhysics` (index.js lines 36-89): every non-driving
player drains its queue; driving players are skipped. -/
def phase1 (tr : Trig) (dt : ℚ) (ps : List (String × Player)) :
    List (String × Player) :=
  ps.map (fun e => (e.1, if e.2.d then e.2 else runPlayerQueue tr dt e.2))

/-- Phase 2 of `simulatePhysics` (index.js lines 92-142): each car with a
driver pops exactly one input from the driver's queue (or a synthesized
neutral input) and advances one physics step; a car whose recorded driver is
missing from the player table has its `dId` cleared.  Returns the updated
player table (driver queues are mutated) together with the updated cars. -/
def carPass (tr : Trig) (dt : ℚ) :
    List (String × Car) → List (String × Player) →
    List (String × Player) × List (String × Car)
  | [], ps => (ps, [])
  | (cid, car) :: rest, ps =>
    match car.dId with
    | none =>
      let r := carPass tr dt rest ps
      (r.1, (cid, car) :: r.2)
    | some drv =>
      match alookup drv ps with
      | none =>
        let r := carPass tr dt rest ps
        (r.1, (cid, { car with dId := none }) :: r.2)
      | some pl =>
        let inp := match pl.pInputs with
          | [] => neutralCarInput
          | i :: _ => i
        let q1 := match pl.pInputs with
          | [] => ([] : List InputCmd)
          | _ :: q => q
        let ps1 := aupdate drv (fun d => { d with pInputs := q1 }) ps
        let r := carPass tr dt rest ps1
        (r.1, (cid, carStep tr dt inp car) :: r.2)

/-- The server's authoritative physics tick `simulatePhysics(deltaTime)`
(index.js lines 34-143). -/
def simulatePhysics (tr : Trig) (dt : ℚ) (st : ServerState) : ServerState :=
  let ps := phase1 tr dt st.players
  let r := carPass tr dt st.cars ps
  { players := r.1, cars := r.2 }

/-- A freshly connected player's server record (index.js lines 209-219). -/
def freshPlayer (pos : Vec3) : Player :=
  { p := pos, lastP := ⟨pos.x, pos.z⟩, v := ⟨0, 0, 0⟩, y := 0, h := 100,
    d := false, vId := none, pInputs := [], lastProcessedInput := some 0 }

/-- The `connection` handler's state effect (index.js lines 199-219):
a new player record is stored under the fresh socket id. -/
def connectPlayer (pid : String) (pos : Vec3) (st : ServerState) : ServerState :=
  { st with players := st.players ++ [(pid, freshPlayer pos)] }

/-- The sequence-jump flag of the `clientInput` handler (index.js line 234):
`input.sequence > player.lastProcessedInput + 10`.  A JavaScript comparison
against `undefined` is false, hence the `Option` fallthrough. -/
def jumpFlagged (inp : InputCmd) (pl : Player) : Bool :=
  match inp.sequence, pl.lastProcessedInput with
  | some s, some l => decide (s > l + 10)
  | _, _ => false

/-- The `clientInput` handler (index.js lines 230-241): if the player
exists, the input is pushed onto its pending queue.  The sequence-jump check
only logs a warning; it has no effect on state, exactly as in the source. -/
def clientInputMsg (pid : String) (inp : InputCmd) (st : ServerState) : ServerState :=
  match alookup pid st.players with
  | none => st
  | some _ =>
    { st with players := aupdate pid (fun pl => { pl with pInputs := pl.pInputs ++ [inp] }) st.players }

/-- The `enterVehicle` branch of the `clientAction` handler
(index.js lines 248-260): succeeds only when the car exists and has no
driver; on success the car records the driver, the player is marked driving
and teleported to the car's position (note: `lastP` is not updated). -/
def enterVehicle (pid : String) (cid : String) (st : ServerState) : ServerState :=
  match alookup pid st.players with
  | none => st
  | some _ =>
    match alookup cid st.cars with
    | none => st
    | some car =>
      if car.dId = none then
        { players := aupdate pid
            (fun pl => { pl with d := true, vId := some cid, p := car.p }) st.players,
          cars := aupdate cid (fun c => { c with dId := some pid }) st.cars }
      else st

/-- The `exitVehicle` branch of the `clientAction` handler
(index.js lines 261-272): succeeds only when the requester is the recorded
driver of the car referenced by its own `vId`; the player is ejected to a
fixed offset beside the car. -/
def exitVehicle (pid : String) (st : ServerState) : ServerState :=
  match alookup pid st.players with
  | none => st
  | some pl =>
    match pl.vId with
    | none => st
    | some cid =>
      match alookup cid st.cars with
      | none => st
      | some car =>
        if car.dId = some pid then
          { players := aupdate pid
              (fun q => { q with d := false, vId := none, p := ⟨car.p.x + 2, 0, car.p.z + 2⟩ }) st.players,
            cars := aupdate cid (fun c => { c with dId := none }) st.cars }
        else st

/-- The `disconnect` handler (index.js lines 293-308): if the departing
player was driving, its car's `dId` is cleared; the player record is removed. -/
def disconnectPlayer (pid : String) (st : ServerState) : ServerState :=
  let carsAfter :=
    match alookup pid st.players with
    | some pl =>
      if pl.d then
        match pl.vId with
        | some cid =>
          if (alookup cid st.cars).isSome then
            aupdate cid (fun c => { c with dId := none }) st.cars
          else st.cars
        | none => st.cars
      else st.cars
    | none => st.cars
  { players := aerase pid st.players, cars := carsAfter }

/-- The server's initial state (index.js lines 12-31): no players, the single
car `'car1'` at `(50, 0.75, 50)` with no driver. -/
def initState : ServerState :=
  { players := [],
    cars := [(car1Id,
      { p := ⟨50, 3/4, 50⟩, y := 0, s := 0, dId := none, pInputs := [],
        lastProcessedInput := some 0 })] }

/-- Deliver a batch of `clientInput` messages (the network-receive path that
runs between ticks, index.js lines 230-241). -/
def deliver (st : ServerState) (ds : List (String × InputCmd)) : ServerState :=
  ds.foldl (fun s e => clientInputMsg e.1 e.2 s) st

/-- The server loop `gameLoop` driven by a schedule of wall-clock tick
invocation times (index.js lines 150-156): each tick computes
`deltaTime = (now - lastTick) / 1000` and runs `simulatePhysics`; the inputs
listed with a tick are those delivered before it fired. -/
def runAtTimes (tr : Trig) : ℚ → ServerState →
    List (ℚ × List (String × InputCmd)) → ServerState
  | _, st, [] => st
  | last, st, (t, ds) :: rest =>
      runAtTimes tr t (simulatePhysics tr ((t - last) / 1000) (deliver st ds)) rest

/-- Count of PlayerStates referencing vehicle `cid` with `isDriving = true`
(the spec's occupancy-exclusivity measure). -/
def countRefs (cid : String) (ps : List (String × Player)) : Nat :=
  (ps.filter (fun e => e.2.d && decide (e.2.vId = some cid))).length

/-- The occupancy invariant claimed by the spec: a vehicle has a driver iff
exactly one PlayerState references it via `vehicleId`/`isDriving`, and never
more than one. -/
def OccupancyOK (st : ServerState) : Prop :=
  ∀ cid car, alookup cid st.cars = some car →
    ((car.dId.isSome = true) ↔ countRefs cid st.players = 1) ∧
    countRefs cid st.players ≤ 1

/-- The server states reachable from the program's initial state through the
socket handlers and the physics tick.  `connectPlayer` only fires for a fresh
socket id (socket.io allocates unique ids); the tick may run with any
deltaTime and any trigonometric realization. -/
inductive ReachableState : ServerState → Prop where
  | init : ReachableState initState
  | connect {s} (pid : String) (pos : Vec3) :
      ReachableState s → alookup pid s.players = none →
      ReachableState (connectPlayer pid pos s)
  | input {s} (pid : String) (inp : InputCmd) :
      ReachableState s → ReachableState (clientInputMsg pid inp s)
  | enter {s} (pid cid : String) :
      ReachableState s → ReachableState (enterVehicle pid cid s)
  | leave {s} (pid : String) :
      ReachableState s → ReachableState (exitVehicle pid s)
  | disc {s} (pid : String) :
      ReachableState s → ReachableState (disconnectPlayer pid s)
  | tick {s} (tr : Trig) (dt : ℚ) :
      ReachableState s → ReachableState (simulatePhysics tr dt s)

/-- The per-player view inside a server snapshot (index.js lines 168-175):
note the acknowledgment `lastProcessedInput` lives here, per player. -/
structure SnapPlayer where
  p : Vec3
  y : ℚ
  h : ℚ
  d : Bool
  vId : Option String
  lastProcessedInput : Option Nat
deriving DecidableEq, Repr

/-- The per-car view inside a server snapshot (index.js lines 181-186). -/
structure SnapCar where
  p : Vec3
  y : ℚ
  s : ℚ
  dId : Option String
deriving DecidableEq, Repr

/-- A broadcast snapshot.  The top-level `lastProcessedInput` field exists
only because the client reads `snapshot.lastProcessedInput`
(networking.js lines 137 and 156); the server never sets such a property
(index.js lines 159-187 build only `players`, `cars`, `timestamp`), so a
server-produced snapshot carries `none` there, the model of the JavaScript
`undefined` read. -/
structure Snapshot where
  players : List (String × SnapPlayer)
  cars : List (String × SnapCar)
  timestamp : ℚ
  lastProcessedInput : Option Nat
deriving DecidableEq, Repr

/-- Snapshot assembly in `gameLoop` (index.js lines 159-187). -/
def buildSnapshot (st : ServerState) (ts : ℚ) : Snapshot :=
  { players := st.players.map (fun e =>
      (e.1, { p := e.2.p, y := e.2.y, h := e.2.h, d := e.2.d, vId := e.2.vId,
              lastProcessedInput := e.2.lastProcessedInput })),
    cars := st.cars.map (fun e =>
      (e.1, { p := e.2.p, y := e.2.y, s := e.2.s, dId := e.2.dId })),
    timestamp := ts,
    lastProcessedInput := none }

/-- The client's locally predicted player.  Modelled from the spec: the
client `Player` class is not under src/ (src/src/player.js holds only mesh
helpers), so its state is reconstructed from §3/§4.4 of the spec and from
the fields networking.js reads: `position`, `yaw`, `isDriving`, `id`, and
`inputSequence` (read in the reconciliation guard, networking.js line 137). -/
structure LocalPlayer where
  id : String
  position : Vec3
  yaw : ℚ
  isDriving : Bool
  inputSequence : Nat
deriving DecidableEq, Repr

/-- Modelled from the spec: `Player.update(deltaTime, input)` — the client
physics step replayed during reconciliation — is not under src/.  Per §4.4
it applies "the same physics rule set as §4.1 (player branch)" with the
given deltaTime: yaw-relative movement scaled by the same 0.1 factor, plus
the gravity/ground rule.  The client holds no `lastP`, so the server-only
anti-teleport check has no counterpart here. -/
def clientUpdate (tr : Trig) (dt : ℚ) (inp : InputCmd) (lp : LocalPlayer) : LocalPlayer :=
  let speed := MAX_PLAYER_SPEED * (if inp.shift then 2 else 1)
  let mvz := (if inp.forward then -speed else 0) + (if inp.backward then speed else 0)
  let mvx := (if inp.left then -speed else 0) + (if inp.right then speed else 0)
  let sinYaw := tr.sin lp.yaw
  let cosYaw := tr.cos lp.yaw
  let px := lp.position.x + (mvx * cosYaw - mvz * sinYaw) * dt * (1/10)
  let pz := lp.position.z + (mvx * sinYaw + mvz * cosYaw) * dt * (1/10)
  let py0 := if lp.position.y > 0 then lp.position.y + (-30) * dt else lp.position.y
  let py := if py0 < 0 then 0 else py0
  { lp with position := ⟨px, py, pz⟩ }

/-- JavaScript truthiness of a possibly-undefined number:
`undefined` and `0` are falsy. -/
def truthyNat : Option Nat → Bool
  | none => false
  | some n => n != 0

/-- The JavaScript comparison `a <= b` on possibly-undefined numbers:
any comparison involving `undefined` is false. -/
def seqLe (a b : Option Nat) : Bool :=
  match a, b with
  | some x, some y => decide (x ≤ y)
  | _, _ => false

/-- Squared euclidean distance (`THREE.Vector3.distanceTo` squared).  The
source compares `distanceTo(...) > 1.0`; over the nonnegative distance this
is equivalent to the square-free form `dist2 > 1` used here. -/
def dist2 (a b : Vec3) : ℚ :=
  (a.x - b.x)^2 + (a.y - b.y)^2 + (a.z - b.z)^2

/-- The reconciliation splice-and-replay loop (networking.js lines 153-164):
walk the pending buffer in order; an input whose sequence is `<=` the
snapshot's acknowledged sequence is spliced out, any other input is
re-applied through `Player.update` and kept. -/
def reconcileLoop (tr : Trig) (ack : Option Nat) :
    LocalPlayer → List InputCmd → LocalPlayer × List InputCmd
  | lp, [] => (lp, [])
  | lp, i :: rest =>
    if seqLe i.sequence ack then reconcileLoop tr ack lp rest
    else
      let lp1 := clientUpdate tr i.deltaTime i lp
      let r := reconcileLoop tr ack lp1 rest
      (r.1, i :: r.2)

/-- Step 2 of `Networking.handleSnapshot` (networking.js lines 135-167):
the server-reconciliation path for the local player.  Steps 1, 3 and 4 of
the handler only maintain remote-entity buffers and are modelled separately
for interpolation.  Returns the corrected local player and pending buffer. -/
def handleSnapshotReconcile (tr : Trig) (lp : LocalPlayer)
    (pending : List InputCmd) (snap : Snapshot) : LocalPlayer × List InputCmd :=
  if lp.isDriving = false ∧ lp.inputSequence ≠ 0 ∧
     truthyNat snap.lastProcessedInput = true then
    match alookup lp.id snap.players with
    | none => (lp, pending)
    | some sps =>
      if dist2 lp.position sps.p > 1 then
        let snapped := { lp with position := sps.p, yaw := sps.y }
        reconcileLoop tr snap.lastProcessedInput snapped pending
      else (lp, pending)
  else (lp, pending)

/-- The trimming of the pending buffer that the spec claims happens on every
snapshot (discard every entry whose sequence is `<=` the acknowledged
sequence).  Stated from the spec's words, for comparison with the code. -/
def claimTrim (ack : Option Nat) (pending : List InputCmd) : List InputCmd :=
  pending.filter (fun i => !seqLe i.sequence ack)

/-- A timestamped remote-entity sample held in a position history buffer. -/
structure PosSample where
  t : ℚ
  p : Vec3
  yaw : ℚ
deriving DecidableEq, Repr

/-- `INTERPOLATION_DELAY = 100` ms (networking.js line 7). -/
def INTERPOLATION_DELAY : ℚ := 100

/-- The bracketing-pair search of `interpolateRemoteStates`
(networking.js lines 210-216): the first adjacent pair of buffered samples
whose timestamps straddle the render time. -/
def findBracket (rt : ℚ) : List PosSample → Option (PosSample × PosSample)
  | s1 :: s2 :: rest =>
    if s1.t ≤ rt ∧ rt ≤ s2.t then some (s1, s2) else findBracket rt (s2 :: rest)
  | _ => none

/-- Scalar linear interpolation. -/
def lerpQ (a b f : ℚ) : ℚ := a + f * (b - a)

/-- Componentwise linear interpolation of positions. -/
def lerpV (a b : Vec3) (f : ℚ) : Vec3 :=
  ⟨lerpQ a.x b.x f, lerpQ a.y b.y f, lerpQ a.z b.z f⟩

/-- The remote-player rendering decision of `interpolateRemoteStates`
(networking.js lines 202-226): if a bracketing pair exists the factor
`(renderTime - p1.timestamp) / (p2.timestamp - p1.timestamp)` is used,
otherwise the handler falls back on the newest buffered sample.
Modelled from the spec where the source is missing: `Player.updateMesh` and
`positionBuffer` live in the client `Player` class, which is not under src/;
per §4.6 the bracketing case linear-interpolates the bracketing pair by the
computed factor, and the fallback "renders the most recent sample unmodified
rather than extrapolating". -/
def renderRemotePlayer (rt : ℚ) (buf : List PosSample) : Option Vec3 :=
  match findBracket rt buf with
  | some br => some (lerpV br.1.p br.2.p ((rt - br.1.t) / (br.2.t - br.1.t)))
  | none => (buf.getLast?).map (fun s => s.p)

/-- Strictly increasing timestamps in a history buffer (the spec's
PositionHistoryBuffer is an ordered sequence of timestamped samples). -/
def timesSorted : List PosSample → Bool
  | s1 :: s2 :: rest => decide (s1.t < s2.t) && timesSorted (s2 :: rest)
  | _ => true

/-- JavaScript `q % 1` for nonnegative `q`: the fractional part. -/
def jsMod1 (q : ℚ) : ℚ := q - (⌊q⌋ : ℚ)

/-- A remote car as the client renders it: recorded driver and history
buffer.  The client `Car` class consumed by networking.js (with
`positionBuffer`/`updateMesh`) is not under src/ — src/src/car.js holds an
incompatible local-prediction class — so only these two fields are kept. -/
structure ClientCar where
  dId : Option String
  buf : List PosSample
deriving DecidableEq, Repr

/-- The car branch of `interpolateRemoteStates` (networking.js lines
230-235): a car with a driver and at least two buffered states is rendered
with the factor `time / 1000 % 1` — wall-clock based, unrelated to the
sample timestamps.  Modelled from the spec/source comment where the source
is missing: `Car.updateMesh(factor)` is not under src/; the source comment
says "use the two newest states in buffer", so the factor interpolates the
two newest samples. -/
def renderRemoteCar (time : ℚ) (car : ClientCar) : Option Vec3 :=
  if car.dId.isSome = true ∧ 2 ≤ car.buf.length then
    match car.buf.dropLast.getLast?, car.buf.getLast? with
    | some s1, some s2 => some (lerpV s1.p s2.p (jsMod1 (time / 1000)))
    | _, _ => none
  else none

/-- The rendering rule the claim states for every remote entity: linear
interpolation of the bracketing pair by the fractional offset of the render
time.  Stated from the claim's words, for comparison with the car path. -/
def claimBracketRender (rt : ℚ) (buf : List PosSample) : Option Vec3 :=
  (findBracket rt buf).map
    (fun br => lerpV br.1.p br.2.p ((rt - br.1.t) / (br.2.t - br.1.t)))

/-- The per-command-deltaTime processing rule the claim states for the
server's player branch: every queued command applied in FIFO order, each
with its own `deltaTime` field.  Stated from the claim's words, for
comparison with `runPlayerQueue` (which uses the tick's deltaTime). -/
def runPlayerQueueOwnDt (tr : Trig) (pl : Player) : Player :=
  pl.pInputs.foldl (fun q i => playerApplyInput tr i.deltaTime q i)
    { pl with pInputs := [] }

/-- A sample player id. -/
def p1Id : String := "p1"

/-- A second sample player id. -/
def p2Id : String := "p2"

/-- A forward-pressed wire input with the given sequence and deltaTime. -/
def cmdF (n : Nat) (dt : ℚ) : InputCmd :=
  { sequence := some n, deltaTime := dt, forward := true, backward := false,
    left := false, right := false, shift := false }

/-- A no-keys wire input with the given sequence and deltaTime. -/
def cmdN (n : Nat) (dt : ℚ) : InputCmd :=
  { sequence := some n, deltaTime := dt, forward := false, backward := false,
    left := false, right := false, shift := false }

/-- Fixture: a non-driving player holding one queued forward command whose
own `deltaTime` (2) differs from the tick's. -/
def plC4 : Player :=
  { p := ⟨0, 0, 0⟩, lastP := ⟨0, 0⟩, v := ⟨0, 0, 0⟩, y := 0, h := 100,
    d := false, vId := none, pInputs := [cmdF 1 2], lastProcessedInput := some 0 }

/-- Fixture: a server state with one airborne non-driving player (y = 50),
used to show that tick timing leaks into the result through gravity. -/
def stC3 : ServerState :=
  { players := [(p1Id,
      { p := ⟨0, 50, 0⟩, lastP := ⟨0, 0⟩, v := ⟨0, 0, 0⟩, y := 0, h := 100,
        d := false, vId := none, pInputs := [], lastProcessedInput := some 0 })],
    cars := initState.cars }

/-- Fixture: a player whose position is far from its `lastP` record (the
state `enterVehicle` leaves behind, since it teleports `p` but not `lastP`),
so that the very next movement triggers the anti-teleport check. -/
def plC7 : Player :=
  { p := ⟨100, 0, 100⟩, lastP := ⟨0, 0⟩, v := ⟨0, 0, 0⟩, y := 0, h := 100,
    d := false, vId := none, pInputs := [], lastProcessedInput := some 0 }

/-- Fixture: server state for the reconciliation bug — the server has the
player at the origin with 6 inputs acknowledged. -/
def stC1 : ServerState :=
  { players := [(p1Id,
      { p := ⟨0, 0, 0⟩, lastP := ⟨0, 0⟩, v := ⟨0, 0, 0⟩, y := 0, h := 100,
        d := false, vId := none, pInputs := [], lastProcessedInput := some 6 })],
    cars := initState.cars }

/-- Fixture: the corresponding local player, predicted 2 units away from the
authoritative position (error 2 > threshold 1). -/
def lpC1 : LocalPlayer :=
  { id := p1Id, position := ⟨2, 0, 0⟩, yaw := 0, isDriving := false,
    inputSequence := 7 }

/-- Fixture: the client's pending buffer at that moment; sequence 6 is
already acknowledged by the server of `stC1`, sequence 7 is not. -/
def pendingC1 : List InputCmd := [cmdF 6 (33/1000), cmdF 7 (33/1000)]

/-- Fixture: local player for the within-threshold scenario of the spec
(predicted `(5,0,0)` against authoritative `(5.5,0,0)`, error 0.5). -/
def lpC5 : LocalPlayer :=
  { id := p1Id, position := ⟨5, 0, 0⟩, yaw := 0, isDriving := false,
    inputSequence := 5 }

/-- Fixture: a snapshot acknowledging sequence 3 with authoritative position
`(5.5,0,0)` for the local player — the top-level acknowledgment field is
even set here (the configuration most favourable to the claim). -/
def snapC5 : Snapshot :=
  { players := [(p1Id,
      { p := ⟨11/2, 0, 0⟩, y := 0, h := 100, d := false, vId := none,
        lastProcessedInput := some 3 })],
    cars := [], timestamp := 0, lastProcessedInput := some 3 }

/-- Fixture: pending buffer with an acknowledged entry (sequence 2 ≤ 3) and
an unacknowledged one (sequence 5). -/
def pendingC5 : List InputCmd := [cmdF 2 (33/1000), cmdF 5 (33/1000)]

/-- Fixture: a driven remote car with two buffered samples at timestamps
1000 and 2000 straddling the render time 1400. -/
def carC8 : ClientCar :=
  { dId := some p1Id, buf := [⟨1000, ⟨0, 0, 0⟩, 0⟩, ⟨2000, ⟨100, 0, 0⟩, 0⟩] }

/-- Fixture: a sorted two-sample history buffer used as interpolation
witness. -/
def bufW : List PosSample := [⟨0, ⟨0, 0, 0⟩, 0⟩, ⟨10, ⟨4, 0, 2⟩, 0⟩]

/-- Fixture: the driver of `stC10` — driving, with an empty input queue. -/
def plC10 : Player :=
  { p := ⟨50, 3/4, 50⟩, lastP := ⟨50, 50⟩, v := ⟨0, 0, 0⟩, y := 0, h := 100,
    d := true, vId := some car1Id, pInputs := [], lastProcessedInput := some 4 }

/-- Fixture: a server state whose single car is driven by `p1` whose queue
is empty; the car has previously acknowledged sequence 4. -/
def stC10 : ServerState :=
  { players := [(p1Id, plC10)],
    cars := [(car1Id,
      { p := ⟨50, 3/4, 50⟩, y := 0, s := 0, dId := some p1Id, pInputs := [],
        lastProcessedInput := some 4 })] }

/-- Fixture: two connected players and the unoccupied initial car. -/
def stC6 : ServerState :=
  connectPlayer p2Id ⟨1, 0, 1⟩ (connectPlayer p1Id ⟨0, 0, 0⟩ initState)

/-- Fixture: a server state with one connected idle player, used as the
sequence-jump witness. -/
def stC9 : ServerState := connectPlayer p1Id ⟨0, 0, 0⟩ initState

/-- The conclusion of the remote-player interpolation property: a bracketing
pair yields the fractional-offset factor in `[0,1]` and a rendered position
on the segment between the pair (within the coordinatewise min/max), and
without a bracketing pair the newest sample is rendered unmodified. -/
def InterpOK (rt : ℚ) (buf : List PosSample) : Prop :=
  (∀ s1 s2, findBracket rt buf = some (s1, s2) →
    0 ≤ (rt - s1.t) / (s2.t - s1.t) ∧
    (rt - s1.t) / (s2.t - s1.t) ≤ 1 ∧
    renderRemotePlayer rt buf =
      some (lerpV s1.p s2.p ((rt - s1.t) / (s2.t - s1.t))) ∧
    (min s1.p.x s2.p.x ≤ (lerpV s1.p s2.p ((rt - s1.t) / (s2.t - s1.t))).x ∧
      (lerpV s1.p s2.p ((rt - s1.t) / (s2.t - s1.t))).x ≤ max s1.p.x s2.p.x) ∧
    (min s1.p.y s2.p.y ≤ (lerpV s1.p s2.p ((rt - s1.t) / (s2.t - s1.t))).y ∧
      (lerpV s1.p s2.p ((rt - s1.t) / (s2.t - s1.t))).y ≤ max s1.p.y s2.p.y) ∧
    (min s1.p.z s2.p.z ≤ (lerpV s1.p s2.p ((rt - s1.t) / (s2.t - s1.t))).z ∧
      (lerpV s1.p s2.p ((rt - s1.t) / (s2.t - s1.t))).z ≤ max s1.p.z s2.p.z)) ∧
  (findBracket rt buf = none → ∀ s, buf.getLast? = some s →
    renderRemotePlayer rt buf = some s.p)

/-- The occupancy-relevant projection of the player table: key, `isDriving`
and `vehicleId` of every entry. -/
def occP (ps : List (String × Player)) : List (String × Bool × Option String) :=
  ps.map (fun e => (e.1, e.2.d, e.2.vId))

/-- The occupancy-relevant projection of the car table: key and `driverId`
of every entry. -/
def occC (cs : List (String × Car)) : List (String × Option String) :=
  cs.map (fun e => (e.1, e.2.dId))

/-- The inductive strengthening of the occupancy invariant: keys are
distinct (JavaScript object keys), every car in the table is the world's
single car `'car1'`, every recorded driver is a connected player that is
driving that car, and every driving player's `vehicleId` points back to a
car whose `driverId` is that player. -/
structure OccInv (st : ServerState) : Prop where
  pn : keysNodup st.players
  cn : keysNodup st.cars
  dom : ∀ cid car, alookup cid st.cars = some car → cid = car1Id
  drv : ∀ cid car pid, alookup cid st.cars = some car → car.dId = some pid →
    ∃ pl, alookup pid st.players = some pl ∧ pl.d = true ∧ pl.vId = some cid
  ref : ∀ pid pl, alookup pid st.players = some pl → pl.d = true →
    ∃ cid car, pl.vId = some cid ∧ alookup cid st.cars = some car ∧
      car.dId = some pid

lemma alookup_aupdate_self {α : Type} (k : String) (f : α → α)
    (l : List (String × α)) :
    alookup k (aupdate k f l) = (alookup k l).map f := by
  induction l with
  | nil => rfl
  | cons e rest ih =>
    by_cases he : e.1 = k
    · simp [alookup, aupdate, he]
    · simpa [alookup, aupdate, he] using ih

lemma alookup_aupdate_ne {α : Type} {k' k : String} (h : k' ≠ k) (f : α → α)
    (l : List (String × α)) :
    alookup k' (aupdate k f l) = alookup k' l := by
  induction l with
  | nil => rfl
  | cons e rest ih =>
    simp only [aupdate, List.map] at ih ⊢
    by_cases he : e.1 = k
    · have hk : ¬ (k = k') := fun hh => h hh.symm
      simp [alookup, he, hk, ih]
    · by_cases he' : e.1 = k'
      · simp [alookup, he, he', h]
      · simp [alookup, he, he', ih]

lemma playerApplyInput_dt_field_irrel (tr : Trig) (dt : ℚ) (pl : Player)
    (i : InputCmd) (x : ℚ) :
    playerApplyInput tr dt pl { i with deltaTime := x } = playerApplyInput tr dt pl i := rfl

lemma drainQueue_map_dt (tr : Trig) (dt : ℚ) (f : InputCmd → ℚ) :
    ∀ (q : List InputCmd) (pl : Player),
      drainQueue tr dt pl (q.map (fun i => { i with deltaTime := f i })) =
      drainQueue tr dt pl q := by
  intro q
  induction q with
  | nil => intro pl; rfl
  | cons i rest ih =>
    intro pl
    simpa [drainQueue, playerApplyInput_dt_field_irrel] using ih _

lemma drainQueue_foldl (tr : Trig) (dt : ℚ) :
    ∀ (q : List InputCmd) (pl : Player),
      drainQueue tr dt pl q = q.foldl (playerApplyInput tr dt) pl := by
  intro q
  induction q with
  | nil => intro pl; rfl
  | cons i rest ih => intro pl; simpa [drainQueue] using ih _

lemma playerApplyInput_pInputs (tr : Trig) (dt : ℚ) (pl : Player) (i : InputCmd) :
    (playerApplyInput tr dt pl i).pInputs = pl.pInputs := rfl

lemma drainQueue_pInputs (tr : Trig) (dt : ℚ) :
    ∀ (q : List InputCmd) (pl : Player),
      (drainQueue tr dt pl q).pInputs = pl.pInputs := by
  intro q
  induction q with
  | nil => intro pl; rfl
  | cons i rest ih =>
    intro pl
    simpa [drainQueue, playerApplyInput_pInputs] using ih _

/-- Claim C1 (code_bug evaluation).  The reconciliation path of
`handleSnapshot` never executes for a server-produced snapshot: the client
guards on `snapshot.lastProcessedInput`, but `gameLoop` builds snapshots
whose acknowledgment lives only per-player (`snapshot.players[id]`), so the
top-level read is `undefined` and falsy.  At the concrete failing input the
local player is not driving, its positional error (2) exceeds the 1.0
threshold and an acknowledged input (sequence 6 ≤ 6) sits in the pending
buffer — the claim demands a discard + snap + replay — yet the handler
returns player and buffer completely unchanged. -/
theorem c1_reconciliation_never_fires :
    handleSnapshotReconcile tr0 lpC1 pendingC1 (buildSnapshot stC1 0) = (lpC1, pendingC1) ∧
    dist2 lpC1.position (⟨0, 0, 0⟩ : Vec3) > 1 ∧
    (buildSnapshot stC1 0).lastProcessedInput = none ∧
    (alookup p1Id (buildSnapshot stC1 0).players).map
      (fun s => s.lastProcessedInput) = some (some 6) ∧
    pendingC1 ≠ [] := by
  refine ⟨?_, ?_, ?_, ?_, ?_⟩ <;> with_unfolding_all decide

/-- Claim C4 (counterexample).  The server's player branch does not apply a
queued command with the command's own `deltaTime`: with a tick deltaTime of
1 and a single queued forward command whose own `deltaTime` is 2, the
drained state differs from the claimed own-deltaTime processing. -/
theorem c4_own_dt_counterexample :
    runPlayerQueue tr0 1 plC4 ≠ runPlayerQueueOwnDt tr0 plC4 := by
  with_unfolding_all decide

/-- Claim C4 (amended).  On each tick every queued command of a non-driving
player is popped and applied individually in FIFO order — none merged, none
skipped, the queue left empty — but each is applied with the tick's
deltaTime: the result is invariant under arbitrary rewrites of the commands'
own `deltaTime` fields. -/
theorem c4_fifo_tick_dt (tr : Trig) (dt : ℚ) (pl : Player) (f : InputCmd → ℚ) :
    runPlayerQueue tr dt { pl with pInputs := pl.pInputs.map (fun i => { i with deltaTime := f i }) } =
      runPlayerQueue tr dt pl ∧
    runPlayerQueue tr dt pl =
      pl.pInputs.foldl (playerApplyInput tr dt) { pl with pInputs := [] } ∧
    (runPlayerQueue tr dt pl).pInputs = [] := by
  refine ⟨?_, ?_, ?_⟩
  · show drainQueue tr dt _ _ = drainQueue tr dt _ _
    exact drainQueue_map_dt tr dt f pl.pInputs _
  · exact drainQueue_foldl tr dt pl.pInputs _
  · rw [runPlayerQueue, drainQueue_pInputs]

/-- Claim C3 (counterexample).  Identical ordered input commands with
identical per-command deltaTimes, run under two different tick schedules
(one tick at t = 1000 ms versus one tick at t = 500 ms), produce different
states: the tick's wall-clock-derived deltaTime enters the physics (here
through the gravity step), so tick timing does affect the result. -/
theorem c3_tick_timing_counterexample :
    runAtTimes tr0 0 stC3 [(1000, [(p1Id, cmdN 1 (33/1000))])] ≠
    runAtTimes tr0 0 stC3 [(500, [(p1Id, cmdN 1 (33/1000))])] := by
  with_unfolding_all decide

/-- Claim C3 (amended).  The simulator is a pure function of the initial
state, the delivered commands and the inter-tick deltaTimes: shifting every
tick invocation time (and the initial `lastTick`) by a constant leaves the
resulting PlayerState/VehicleState identical.  Absolute wall-clock values do
not matter — but, by the counterexample, the inter-tick intervals do. -/
theorem c3_time_shift_invariance (tr : Trig) (c : ℚ) :
    ∀ (sched : List (ℚ × List (String × InputCmd))) (last : ℚ) (st : ServerState),
      runAtTimes tr (last + c) st (sched.map (fun e => (e.1 + c, e.2))) =
      runAtTimes tr last st sched := by
  intro sched
  induction sched with
  | nil => intro last st; rfl
  | cons e rest ih =>
    intro last st
    obtain ⟨t, ds⟩ := e
    simp only [List.map, runAtTimes]
    have harith : t + c - (last + c) = t - last := by ring
    rw [harith]
    exact ih t _

/-- Claim C5 (counterexample).  At the spec's own scenario — predicted
`(5,0,0)`, authoritative `(5.5,0,0)`, error 0.5 < 1.0, acknowledged sequence
3, pending buffer holding sequences 2 and 5 — no snap occurs, but the pending
buffer is NOT trimmed: the handler returns it unchanged, still containing
the acknowledged sequence-2 entry, instead of the claimed trimmed buffer. -/
theorem c5_no_trim_counterexample :
    handleSnapshotReconcile tr0 lpC5 pendingC5 snapC5 = (lpC5, pendingC5) ∧
    (handleSnapshotReconcile tr0 lpC5 pendingC5 snapC5).2 ≠
      claimTrim snapC5.lastProcessedInput pendingC5 ∧
    seqLe (cmdF 2 (33/1000)).sequence snapC5.lastProcessedInput = true := by
  refine ⟨?_, ?_, ?_⟩ <;> with_unfolding_all decide

/-- Claim C5 (amended).  When the local player's positional error is within
the 1.0 threshold, reconciliation changes nothing at all: no snap occurs and
the pending-input buffer is returned unchanged — it is not trimmed (the
source only splices the buffer inside the over-threshold correction branch). -/
theorem c5_within_threshold_noop (tr : Trig) (lp : LocalPlayer)
    (pending : List InputCmd) (snap : Snapshot)
    (h : ∀ sps, alookup lp.id snap.players = some sps →
         dist2 lp.position sps.p ≤ 1) :
    handleSnapshotReconcile tr lp pending snap = (lp, pending) := by
  unfold handleSnapshotReconcile
  split
  · split
    · rfl
    · rename_i sps hsps
      rw [if_neg]
      exact not_lt.mpr (h sps hsps)
  · rfl

/-- Witness for `c5_within_threshold_noop` at the spec's scenario inputs. -/
theorem c5_within_threshold_noop_witness :
    handleSnapshotReconcile tr0 lpC5 pendingC5 snapC5 = (lpC5, pendingC5) :=
  c5_within_threshold_noop tr0 lpC5 pendingC5 snapC5 (by with_unfolding_all decide)

lemma alookup_phase1 (tr : Trig) (dt : ℚ) (k : String)
    (ps : List (String × Player)) :
    alookup k (phase1 tr dt ps) =
      (alookup k ps).map (fun pl => if pl.d then pl else runPlayerQueue tr dt pl) := by
  induction ps with
  | nil => rfl
  | cons e rest ih =>
    by_cases he : e.1 = k
    · simp [alookup, phase1, he]
    · simpa [alookup, phase1, he] using ih

/-- Claim C7.  Whenever the anti-teleport check fires for a command of a
non-driving player, the player's horizontal position is reverted to the last
accepted value (`lastP`), which also becomes the new `lastP`; processing
then continues with the remaining queued commands unaffected — only this
single movement is undone. -/
theorem c7_anti_teleport_revert (tr : Trig) (dt : ℚ) (pl : Player)
    (inp : InputCmd) (rest : List InputCmd)
    (h : rejectsMove tr dt pl inp = true) :
    (playerApplyInput tr dt pl inp).p.x = pl.lastP.x ∧
    (playerApplyInput tr dt pl inp).p.z = pl.lastP.z ∧
    (playerApplyInput tr dt pl inp).lastP = ⟨pl.lastP.x, pl.lastP.z⟩ ∧
    drainQueue tr dt pl (inp :: rest) =
      drainQueue tr dt (playerApplyInput tr dt pl inp) rest := by
  refine ⟨?_, ?_, ?_, rfl⟩ <;> simp [playerApplyInput, h]

/-- Witness for `c7_anti_teleport_revert`: a player whose `p` sits far from
its `lastP` record (the situation `enterVehicle` leaves behind) triggers the
check on an ordinary forward command at tick deltaTime 1. -/
theorem c7_anti_teleport_revert_witness :
    (playerApplyInput tr0 1 plC7 (cmdF 1 (33/1000))).p.x = plC7.lastP.x ∧
    (playerApplyInput tr0 1 plC7 (cmdF 1 (33/1000))).p.z = plC7.lastP.z ∧
    (playerApplyInput tr0 1 plC7 (cmdF 1 (33/1000))).lastP = ⟨plC7.lastP.x, plC7.lastP.z⟩ ∧
    drainQueue tr0 1 plC7 (cmdF 1 (33/1000) :: []) =
      drainQueue tr0 1 (playerApplyInput tr0 1 plC7 (cmdF 1 (33/1000))) [] :=
  c7_anti_teleport_revert tr0 1 plC7 (cmdF 1 (33/1000)) []
    (by with_unfolding_all decide)

/-- Claim C9.  A `clientInput` whose sequence jumps more than 10 ahead of
the connection's last processed sequence is still accepted: the command is
appended to the player's pending queue, every other player's record is
untouched and the cars are untouched — exactly the effect of a non-jumping
input (the handler's state effect does not consult the flag at all). -/
theorem c9_sequence_jump_accepted (st : ServerState) (pid : String)
    (inp : InputCmd) (pl : Player)
    (hp : alookup pid st.players = some pl)
    (hj : jumpFlagged inp pl = true) :
    alookup pid (clientInputMsg pid inp st).players =
      some { pl with pInputs := pl.pInputs ++ [inp] } ∧
    (∀ q, q ≠ pid → alookup q (clientInputMsg pid inp st).players = alookup q st.players) ∧
    (clientInputMsg pid inp st).cars = st.cars := by
  refine ⟨?_, ?_, ?_⟩
  · simp [clientInputMsg, hp, alookup_aupdate_self]
  · intro q hq
    simp [clientInputMsg, hp, alookup_aupdate_ne hq]
  · simp [clientInputMsg, hp]

/-- Witness for `c9_sequence_jump_accepted`: a fresh player (acknowledged
sequence 0) receiving a sequence-20 input — a jump of 20 > 10. -/
theorem c9_sequence_jump_accepted_witness :
    alookup p1Id (clientInputMsg p1Id (cmdF 20 (33/1000)) stC9).players =
      some { freshPlayer ⟨0, 0, 0⟩ with
             pInputs := (freshPlayer ⟨0, 0, 0⟩).pInputs ++ [cmdF 20 (33/1000)] } ∧
    (∀ q, q ≠ p1Id →
      alookup q (clientInputMsg p1Id (cmdF 20 (33/1000)) stC9).players =
        alookup q stC9.players) ∧
    (clientInputMsg p1Id (cmdF 20 (33/1000)) stC9).cars = stC9.cars :=
  c9_sequence_jump_accepted stC9 p1Id (cmdF 20 (33/1000)) (freshPlayer ⟨0, 0, 0⟩)
    (by with_unfolding_all decide) (by with_unfolding_all decide)

/-- Claim C6.  `enterVehicle` succeeds only on a driverless car: after a
first successful `enterVehicle`, the car records the first driver, and a
second `enterVehicle` request for the now-occupied car — from any player —
is a silent no-op leaving the whole server state unchanged. -/
theorem c6_enter_occupied_noop (st : ServerState) (pid1 pid2 cid : String)
    (car : Car) (pl1 : Player)
    (hp : alookup pid1 st.players = some pl1)
    (hc : alookup cid st.cars = some car)
    (hd : car.dId = none) :
    (∃ car1, alookup cid (enterVehicle pid1 cid st).cars = some car1 ∧
      car1.dId = some pid1) ∧
    enterVehicle pid2 cid (enterVehicle pid1 cid st) = enterVehicle pid1 cid st := by
  have hcar1 : alookup cid (enterVehicle pid1 cid st).cars =
      some { car with dId := some pid1 } := by
    simp [enterVehicle, hp, hc, hd, alookup_aupdate_self]
  refine ⟨⟨_, hcar1, rfl⟩, ?_⟩
  generalize hst1 : enterVehicle pid1 cid st = st1 at hcar1 ⊢
  cases h2 : alookup pid2 st1.players with
  | none => simp [enterVehicle, h2]
  | some pl2 => simp [enterVehicle, h2, hcar1]

/-- Witness for `c6_enter_occupied_noop`: the repo's car `'car1'`, entered
by `p1` and then requested by `p2`. -/
theorem c6_enter_occupied_noop_witness :
    (∃ car1, alookup car1Id (enterVehicle p1Id car1Id stC6).cars = some car1 ∧
      car1.dId = some p1Id) ∧
    enterVehicle p2Id car1Id (enterVehicle p1Id car1Id stC6) =
      enterVehicle p1Id car1Id stC6 :=
  c6_enter_occupied_noop stC6 p1Id p2Id car1Id
    { p := ⟨50, 3/4, 50⟩, y := 0, s := 0, dId := none, pInputs := [],
      lastProcessedInput := some 0 }
    (freshPlayer ⟨0, 0, 0⟩)
    (by with_unfolding_all decide) (by with_unfolding_all decide)
    (by with_unfolding_all decide)

/-- Claim C10.  On a tick where the (single) car has a recorded, connected
and driving driver whose input queue is empty, the car still advances
exactly one `carStep` using the synthesized neutral input, and — because the
synthesized input object carries no `sequence` field — the car's
`lastProcessedInput` is overwritten with the undefined value (`none`) rather
than keeping the previously acknowledged sequence. -/
theorem c10_empty_queue_neutral_step (tr : Trig) (dt : ℚ) (st : ServerState)
    (cid : String) (car : Car) (d : String) (pl : Player)
    (hcars : st.cars = [(cid, car)])
    (hdid : car.dId = some d)
    (hp : alookup d st.players = some pl)
    (hd : pl.d = true)
    (hq : pl.pInputs = []) :
    (simulatePhysics tr dt st).cars = [(cid, carStep tr dt neutralCarInput car)] ∧
    (carStep tr dt neutralCarInput car).lastProcessedInput = none := by
  constructor
  · have hph : alookup d (phase1 tr dt st.players) = some pl := by
      rw [alookup_phase1, hp]
      simp [hd]
    show (carPass tr dt st.cars (phase1 tr dt st.players)).2 = _
    rw [hcars]
    simp [carPass, hdid, hph, hq]
  · simp [carStep, neutralCarInput]

/-- Witness for `c10_empty_queue_neutral_step` at the concrete state
`stC10` (driver `p1`, empty queue, previously acknowledged sequence 4). -/
theorem c10_empty_queue_neutral_step_witness :
    (simulatePhysics tr0 (1/30) stC10).cars =
      [(car1Id, carStep tr0 (1/30) neutralCarInput
        { p := ⟨50, 3/4, 50⟩, y := 0, s := 0, dId := some p1Id, pInputs := [],
          lastProcessedInput := some 4 })] ∧
    (carStep tr0 (1/30) neutralCarInput
      { p := ⟨50, 3/4, 50⟩, y := 0, s := 0, dId := some p1Id, pInputs := [],
        lastProcessedInput := some 4 }).lastProcessedInput = none :=
  c10_empty_queue_neutral_step tr0 (1/30) stC10 car1Id _ p1Id plC10
    rfl (by with_unfolding_all decide) (by with_unfolding_all decide)
    (by with_unfolding_all decide) (by with_unfolding_all decide)

lemma findBracket_sound (rt : ℚ) :
    ∀ (buf : List PosSample) (s1 s2 : PosSample),
      timesSorted buf = true → findBracket rt buf = some (s1, s2) →
      s1.t ≤ rt ∧ rt ≤ s2.t ∧ s1.t < s2.t := by
  intro buf
  induction buf with
  | nil => intro s1 s2 _ hb; simp [findBracket] at hb
  | cons a tail ih =>
    intro s1 s2 hs hb
    cases tail with
    | nil => simp [findBracket] at hb
    | cons b rest =>
      have hst : (decide (a.t < b.t) && timesSorted (b :: rest)) = true := hs
      rw [Bool.and_eq_true] at hst
      have hab : a.t < b.t := of_decide_eq_true hst.1
      rw [findBracket] at hb
      by_cases hc : a.t ≤ rt ∧ rt ≤ b.t
      · rw [if_pos hc] at hb
        have hpair := Option.some.inj hb
        injection hpair with ha hb2
        subst ha
        subst hb2
        exact ⟨hc.1, hc.2, hab⟩
      · rw [if_neg hc] at hb
        exact ih s1 s2 hst.2 hb

lemma lerp_mem {a b f : ℚ} (h0 : 0 ≤ f) (h1 : f ≤ 1) :
    min a b ≤ lerpQ a b f ∧ lerpQ a b f ≤ max a b := by
  rcases le_total a b with h | h
  · rw [min_eq_left h, max_eq_right h]
    unfold lerpQ
    constructor <;> nlinarith
  · rw [min_eq_right h, max_eq_left h]
    unfold lerpQ
    constructor <;> nlinarith

/-- Claim C8 (counterexample).  For remote cars the interpolation factor is
not the fractional offset of the render time between the bracketing pair:
with samples at timestamps 1000 and 2000 straddling the render time 1400
(now 1500 minus the 100 ms delay), the claim's rule yields factor 0.4 and
position `(40,0,0)`, but the code's car branch uses `time/1000 % 1 = 0.5`
and renders `(50,0,0)`. -/
theorem c8_car_factor_counterexample :
    renderRemoteCar 1500 carC8 = some ⟨50, 0, 0⟩ ∧
    claimBracketRender (1500 - INTERPOLATION_DELAY) carC8.buf = some ⟨40, 0, 0⟩ ∧
    renderRemoteCar 1500 carC8 ≠
      claimBracketRender (1500 - INTERPOLATION_DELAY) carC8.buf := by
  refine ⟨?_, ?_, ?_⟩ <;> with_unfolding_all decide

/-- Claim C8 (amended, restricted to remote players).  For a remote player's
history buffer with strictly increasing timestamps: whenever the code finds
a bracketing pair straddling the render time, the interpolation factor is
the fractional offset of the render time between the two sample timestamps
(hence in `[0,1]`) and the rendered position is the linear interpolation of
the pair, lying within the coordinatewise `[min, max]` of the pair; when no
bracketing pair exists, the most recent sample is rendered unmodified.
Remote cars do not follow this rule: the code interpolates the two newest
samples by the wall-clock factor `time/1000 % 1` (see the counterexample). -/
theorem c8_remote_player_interpolation (rt : ℚ) (buf : List PosSample)
    (hs : timesSorted buf = true) : InterpOK rt buf := by
  constructor
  · intro s1 s2 hb
    obtain ⟨h1, h2, h3⟩ := findBracket_sound rt buf s1 s2 hs hb
    have hpos : (0 : ℚ) < s2.t - s1.t := by linarith
    have hf0 : 0 ≤ (rt - s1.t) / (s2.t - s1.t) :=
      div_nonneg (by linarith) (le_of_lt hpos)
    have hf1 : (rt - s1.t) / (s2.t - s1.t) ≤ 1 := by
      rw [div_le_one hpos]; linarith
    refine ⟨hf0, hf1, ?_, ?_, ?_, ?_⟩
    · simp [renderRemotePlayer, hb]
    · exact ⟨(lerp_mem hf0 hf1).1, (lerp_mem hf0 hf1).2⟩
    · exact ⟨(lerp_mem hf0 hf1).1, (lerp_mem hf0 hf1).2⟩
    · exact ⟨(lerp_mem hf0 hf1).1, (lerp_mem hf0 hf1).2⟩
  · intro hnone s hlast
    simp [renderRemotePlayer, hnone, hlast]

/-- Witness for `c8_remote_player_interpolation` on the two-sample sorted
buffer `bufW`. -/
theorem c8_remote_player_interpolation_witness : InterpOK 5 bufW :=
  c8_remote_player_interpolation 5 bufW (by with_unfolding_all decide)

lemma alookup_mem {α : Type} {k : String} {v : α} :
    ∀ {l : List (String × α)}, alookup k l = some v → (k, v) ∈ l := by
  intro l
  induction l with
  | nil => intro h; simp [alookup] at h
  | cons e rest ih =>
    intro h
    rw [alookup] at h
    by_cases he : e.1 = k
    · rw [if_pos he] at h
      have hv := Option.some.inj h
      obtain ⟨a, b⟩ := e
      subst he
      subst hv
      exact List.mem_cons_self _ _
    · rw [if_neg he] at h
      exact List.mem_cons_of_mem _ (ih h)

lemma mem_alookup {α : Type} {k : String} {v : α} :
    ∀ {l : List (String × α)}, keysNodup l → (k, v) ∈ l → alookup k l = some v := by
  intro l
  induction l with
  | nil => intro _ h; simp at h
  | cons e rest ih =>
    intro hn hm
    have hn' : (e.1 :: rest.map Prod.fst).Nodup := hn
    rw [List.nodup_cons] at hn'
    rcases List.mem_cons.mp hm with h | h
    · rw [← h]
      simp [alookup]
    · have hk : e.1 ≠ k := by
        intro he
        exact hn'.1 (he ▸ (List.mem_map.mpr ⟨(k, v), h, rfl⟩))
      rw [alookup, if_neg hk]
      exact ih hn'.2 h

lemma alookup_none_not_mem {α : Type} {k : String} :
    ∀ {l : List (String × α)}, alookup k l = none → k ∉ l.map Prod.fst := by
  intro l
  induction l with
  | nil => intro _ h; simp at h
  | cons e rest ih =>
    intro h hm
    rw [alookup] at h
    by_cases he : e.1 = k
    · rw [if_pos he] at h; exact Option.noConfusion h
    · rw [if_neg he] at h
      rcases List.mem_cons.mp hm with h' | h'
      · exact he h'.symm
      · exact ih h h'

lemma keys_aupdate {α : Type} (k : String) (f : α → α) (l : List (String × α)) :
    (aupdate k f l).map Prod.fst = l.map Prod.fst := by
  induction l with
  | nil => rfl
  | cons e rest ih =>
    by_cases he : e.1 = k
    · simp [aupdate, he] at ih ⊢
      exact ih
    · simp [aupdate, he] at ih ⊢
      exact ih

lemma keysNodup_aupdate {α : Type} {k : String} {f : α → α}
    {l : List (String × α)} (h : keysNodup l) : keysNodup (aupdate k f l) := by
  unfold keysNodup
  rw [keys_aupdate]
  exact h

lemma alookup_aerase_self {α : Type} (k : String) (l : List (String × α)) :
    alookup k (aerase k l) = none := by
  induction l with
  | nil => rfl
  | cons e rest ih =>
    by_cases he : e.1 = k
    · simpa [aerase, he] using ih
    · simpa [aerase, alookup, he] using ih

lemma aerase_cons {α : Type} (k : String) (e : String × α)
    (rest : List (String × α)) :
    aerase k (e :: rest) =
      if e.1 = k then aerase k rest else e :: aerase k rest := by
  by_cases he : e.1 = k <;> simp [aerase, he]

lemma alookup_aerase_ne {α : Type} {k' k : String} (h : k' ≠ k)
    (l : List (String × α)) : alookup k' (aerase k l) = alookup k' l := by
  induction l with
  | nil => rfl
  | cons e rest ih =>
    rw [aerase_cons]
    by_cases he : e.1 = k
    · have hne : e.1 ≠ k' := by rw [he]; exact fun hh => h hh.symm
      rw [if_pos he, ih, alookup, if_neg hne]
    · rw [if_neg he, alookup, alookup]
      by_cases he' : e.1 = k'
      · rw [if_pos he', if_pos he']
      · rw [if_neg he', if_neg he', ih]

lemma keysNodup_aerase {α : Type} {k : String} {l : List (String × α)}
    (h : keysNodup l) : keysNodup (aerase k l) := by
  unfold keysNodup at h ⊢
  have hsub : List.Sublist ((aerase k l).map Prod.fst) (l.map Prod.fst) :=
    List.Sublist.map Prod.fst (List.filter_sublist l)
  exact List.Nodup.sublist hsub h

lemma alookup_append_some {α : Type} {k : String} {v : α}
    {l l2 : List (String × α)} (h : alookup k l = some v) :
    alookup k (l ++ l2) = some v := by
  induction l with
  | nil => simp [alookup] at h
  | cons e rest ih =>
    rw [alookup] at h
    by_cases he : e.1 = k
    · rw [if_pos he] at h
      simp [alookup, he, h]
    · rw [if_neg he] at h
      simpa [alookup, he] using ih h

lemma alookup_append_none {α : Type} {k : String}
    {l : List (String × α)} (l2 : List (String × α)) (h : alookup k l = none) :
    alookup k (l ++ l2) = alookup k l2 := by
  induction l with
  | nil => rfl
  | cons e rest ih =>
    rw [alookup] at h
    by_cases he : e.1 = k
    · rw [if_pos he] at h; exact Option.noConfusion h
    · rw [if_neg he] at h
      simpa [alookup, he] using ih h

lemma alookup_append_cases {α : Type} {q k : String} {v w : α}
    {l : List (String × α)} (h : alookup q (l ++ [(k, v)]) = some w) :
    alookup q l = some w ∨ (alookup q l = none ∧ q = k ∧ w = v) := by
  cases hl : alookup q l with
  | some u =>
    left
    rw [alookup_append_some hl] at h
    exact h
  | none =>
    right
    rw [alookup_append_none _ hl] at h
    rw [alookup] at h
    by_cases hk : k = q
    · rw [if_pos hk] at h
      exact ⟨rfl, hk.symm, (Option.some.inj h).symm⟩
    · rw [if_neg hk] at h
      simp [alookup] at h

lemma keysNodup_append_fresh {α : Type} {k : String} {v : α}
    {l : List (String × α)} (hn : keysNodup l) (hf : alookup k l = none) :
    keysNodup (l ++ [(k, v)]) := by
  unfold keysNodup at hn ⊢
  rw [List.map_append]
  refine List.Nodup.append hn (List.nodup_singleton k) ?_
  intro a ha hb
  simp only [List.map_cons, List.map_nil, List.mem_singleton] at hb
  subst hb
  exact alookup_none_not_mem hf ha

lemma occP_lookup :
    ∀ {l1 l2 : List (String × Player)}, occP l1 = occP l2 → ∀ k,
      (alookup k l1).map (fun pl => (pl.d, pl.vId)) =
      (alookup k l2).map (fun pl => (pl.d, pl.vId)) := by
  intro l1
  induction l1 with
  | nil =>
    intro l2 h k
    have h2 : l2 = [] := by
      cases l2 with
      | nil => rfl
      | cons e r => simp [occP] at h
    subst h2
    rfl
  | cons e r ih =>
    intro l2 h k
    cases l2 with
    | nil => simp [occP] at h
    | cons e2 r2 =>
      simp only [occP, List.map_cons, List.cons.injEq] at h
      obtain ⟨hhead, htail⟩ := h
      rw [Prod.mk.injEq] at hhead
      obtain ⟨h1, h2⟩ := hhead
      by_cases hk : e.1 = k
      · have hk2 : e2.1 = k := by rw [← h1]; exact hk
        simp only [alookup, if_pos hk, if_pos hk2]
        exact congrArg some h2
      · have hk2 : ¬ e2.1 = k := by rw [← h1]; exact hk
        simp only [alookup, if_neg hk, if_neg hk2]
        exact ih htail k

lemma occC_lookup :
    ∀ {l1 l2 : List (String × Car)}, occC l1 = occC l2 → ∀ k,
      (alookup k l1).map (fun c => c.dId) =
      (alookup k l2).map (fun c => c.dId) := by
  intro l1
  induction l1 with
  | nil =>
    intro l2 h k
    have h2 : l2 = [] := by
      cases l2 with
      | nil => rfl
      | cons e r => simp [occC] at h
    subst h2
    rfl
  | cons e r ih =>
    intro l2 h k
    cases l2 with
    | nil => simp [occC] at h
    | cons e2 r2 =>
      simp only [occC, List.map_cons, List.cons.injEq] at h
      obtain ⟨hhead, htail⟩ := h
      rw [Prod.mk.injEq] at hhead
      obtain ⟨h1, h2⟩ := hhead
      by_cases hk : e.1 = k
      · have hk2 : e2.1 = k := by rw [← h1]; exact hk
        simp only [alookup, if_pos hk, if_pos hk2]
        exact congrArg some h2
      · have hk2 : ¬ e2.1 = k := by rw [← h1]; exact hk
        simp only [alookup, if_neg hk, if_neg hk2]
        exact ih htail k

lemma keys_of_occP {l1 l2 : List (String × Player)} (h : occP l1 = occP l2) :
    l1.map Prod.fst = l2.map Prod.fst := by
  have h' : (occP l1).map Prod.fst = (occP l2).map Prod.fst := by rw [h]
  simpa [occP, List.map_map, Function.comp] using h'

lemma keys_of_occC {l1 l2 : List (String × Car)} (h : occC l1 = occC l2) :
    l1.map Prod.fst = l2.map Prod.fst := by
  have h' : (occC l1).map Prod.fst = (occC l2).map Prod.fst := by rw [h]
  simpa [occC, List.map_map, Function.comp] using h'

lemma countRefs_eq_occ (cid : String) :
    ∀ l : List (String × Player), countRefs cid l =
      ((occP l).filter (fun e => e.2.1 && decide (e.2.2 = some cid))).length := by
  intro l
  induction l with
  | nil => rfl
  | cons e r ih =>
    simp only [countRefs, occP, List.map_cons, List.filter_cons] at ih ⊢
    by_cases hp : (e.2.d && decide (e.2.vId = some cid)) = true
    · simp only [hp, if_true, List.length_cons]
      rw [ih]
    · simp only [hp, if_false, Bool.false_eq_true]
      rw [ih]

lemma countRefs_occ {l1 l2 : List (String × Player)} (h : occP l1 = occP l2)
    (cid : String) : countRefs cid l1 = countRefs cid l2 := by
  rw [countRefs_eq_occ, countRefs_eq_occ, h]

lemma occInv_transfer {st1 st2 : ServerState}
    (hp : occP st1.players = occP st2.players)
    (hc : occC st1.cars = occC st2.cars)
    (h : OccInv st1) : OccInv st2 := by
  obtain ⟨pn, cn, dom, drv, ref⟩ := h
  constructor
  · show keysNodup st2.players
    unfold keysNodup at pn ⊢
    rw [← keys_of_occP hp]
    exact pn
  · show keysNodup st2.cars
    unfold keysNodup at cn ⊢
    rw [← keys_of_occC hc]
    exact cn
  · intro cid car hcar
    cases h1 : alookup cid st1.cars with
    | none =>
      have h' := occC_lookup hc cid
      rw [hcar, h1] at h'
      simp at h'
    | some car1 => exact dom cid car1 h1
  · intro cid car pid hcar hdid
    cases h1 : alookup cid st1.cars with
    | none =>
      have h' := occC_lookup hc cid
      rw [hcar, h1] at h'
      simp at h'
    | some car1 =>
      have h' := occC_lookup hc cid
      rw [hcar, h1] at h'
      simp only [Option.map_some', Option.some.injEq] at h'
      obtain ⟨pl, hpl, hd, hv⟩ := drv cid car1 pid h1 (by rw [h', hdid])
      cases h2 : alookup pid st2.players with
      | none =>
        have hp' := occP_lookup hp pid
        rw [hpl, h2] at hp'
        simp at hp'
      | some pl2 =>
        have hp' := occP_lookup hp pid
        rw [hpl, h2] at hp'
        simp only [Option.map_some', Option.some.injEq] at hp'
        rw [Prod.mk.injEq] at hp'
        obtain ⟨hpd, hpv⟩ := hp'
        refine ⟨pl2, rfl, ?_, ?_⟩
        · rw [← hpd]
          exact hd
        · rw [← hpv]
          exact hv
  · intro pid pl2 hpl2 hd2
    cases h1 : alookup pid st1.players with
    | none =>
      have hp' := occP_lookup hp pid
      rw [hpl2, h1] at hp'
      simp at hp'
    | some pl1 =>
      have hp' := occP_lookup hp pid
      rw [hpl2, h1] at hp'
      simp only [Option.map_some', Option.some.injEq] at hp'
      rw [Prod.mk.injEq] at hp'
      obtain ⟨hpd, hpv⟩ := hp'
      have hd1 : pl1.d = true := by
        rw [hpd]
        exact hd2
      obtain ⟨cid, car1, hv1, hcar1, hdid1⟩ := ref pid pl1 h1 hd1
      cases h2 : alookup cid st2.cars with
      | none =>
        have hc' := occC_lookup hc cid
        rw [hcar1, h2] at hc'
        simp at hc'
      | some car2 =>
        have hc' := occC_lookup hc cid
        rw [hcar1, h2] at hc'
        simp only [Option.map_some', Option.some.injEq] at hc'
        refine ⟨cid, car2, ?_, h2, ?_⟩
        · rw [← hpv]
          exact hv1
        · rw [← hc']
          exact hdid1

lemma drainQueue_occ (tr : Trig) (dt : ℚ) :
    ∀ (q : List InputCmd) (pl : Player),
      (drainQueue tr dt pl q).d = pl.d ∧ (drainQueue tr dt pl q).vId = pl.vId := by
  intro q
  induction q with
  | nil => intro pl; exact ⟨rfl, rfl⟩
  | cons i rest ih => intro pl; exact ih (playerApplyInput tr dt pl i)

lemma runPlayerQueue_occ (tr : Trig) (dt : ℚ) (pl : Player) :
    (runPlayerQueue tr dt pl).d = pl.d ∧ (runPlayerQueue tr dt pl).vId = pl.vId :=
  drainQueue_occ tr dt pl.pInputs _

lemma occP_phase1 (tr : Trig) (dt : ℚ) (ps : List (String × Player)) :
    occP (phase1 tr dt ps) = occP ps := by
  induction ps with
  | nil => rfl
  | cons e rest ih =>
    simp only [occP, phase1, List.map_cons] at ih ⊢
    rw [List.cons.injEq]
    constructor
    · by_cases hd : e.2.d
      · simp [hd]
      · simp [hd, (runPlayerQueue_occ tr dt e.2).1, (runPlayerQueue_occ tr dt e.2).2]
    · exact ih

lemma occP_aupdate (k : String) (f : Player → Player)
    (hf : ∀ a, (f a).d = a.d ∧ (f a).vId = a.vId)
    (l : List (String × Player)) : occP (aupdate k f l) = occP l := by
  induction l with
  | nil => rfl
  | cons e rest ih =>
    simp only [occP, aupdate, List.map_cons] at ih ⊢
    rw [List.cons.injEq]
    refine ⟨?_, ih⟩
    by_cases he : e.1 = k
    · simp [he, (hf e.2).1, (hf e.2).2]
    · simp [he]

lemma lookup_isSome_of_occP {l1 l2 : List (String × Player)}
    (h : occP l1 = occP l2) (k : String) :
    (alookup k l1).isSome = (alookup k l2).isSome := by
  have h' := occP_lookup h k
  cases h1 : alookup k l1 with
  | none =>
    cases h2 : alookup k l2 with
    | none => rfl
    | some pl2 => rw [h1, h2] at h'; simp at h'
  | some pl1 =>
    cases h2 : alookup k l2 with
    | none => rw [h1, h2] at h'; simp at h'
    | some pl2 => rfl

lemma carStep_dId (tr : Trig) (dt : ℚ) (inp : InputCmd) (car : Car) :
    (carStep tr dt inp car).dId = car.dId := rfl

lemma carPass_cons_none {tr : Trig} {dt : ℚ} {cid : String} {car : Car}
    {rest : List (String × Car)} {ps : List (String × Player)}
    (hdid : car.dId = none) :
    carPass tr dt ((cid, car) :: rest) ps =
      ((carPass tr dt rest ps).1, (cid, car) :: (carPass tr dt rest ps).2) := by
  simp [carPass, hdid]

lemma carPass_cons_missing {tr : Trig} {dt : ℚ} {cid drv : String} {car : Car}
    {rest : List (String × Car)} {ps : List (String × Player)}
    (hdid : car.dId = some drv) (hpl : alookup drv ps = none) :
    carPass tr dt ((cid, car) :: rest) ps =
      ((carPass tr dt rest ps).1,
       (cid, { car with dId := none }) :: (carPass tr dt rest ps).2) := by
  simp [carPass, hdid, hpl]

lemma carPass_cons_some {tr : Trig} {dt : ℚ} {cid drv : String} {car : Car}
    {rest : List (String × Car)} {ps : List (String × Player)} {pl : Player}
    (hdid : car.dId = some drv) (hpl : alookup drv ps = some pl) :
    carPass tr dt ((cid, car) :: rest) ps =
      ((carPass tr dt rest
          (aupdate drv (fun d => { d with pInputs := pl.pInputs.tail }) ps)).1,
       (cid, carStep tr dt (pl.pInputs.headD neutralCarInput) car) ::
         (carPass tr dt rest
           (aupdate drv (fun d => { d with pInputs := pl.pInputs.tail }) ps)).2) := by
  cases hq : pl.pInputs with
  | nil => simp [carPass, hdid, hpl, hq]
  | cons i q => simp [carPass, hdid, hpl, hq]

lemma carPass_occ (tr : Trig) (dt : ℚ) :
    ∀ (cs : List (String × Car)) (ps : List (String × Player)),
      (∀ cid car drv, (cid, car) ∈ cs → car.dId = some drv →
        (alookup drv ps).isSome = true) →
      occP (carPass tr dt cs ps).1 = occP ps ∧
      occC (carPass tr dt cs ps).2 = occC cs := by
  intro cs
  induction cs with
  | nil => intro ps _; exact ⟨rfl, rfl⟩
  | cons e rest ih =>
    intro ps h
    obtain ⟨cid, car⟩ := e
    cases hdid : car.dId with
    | none =>
      have hr := ih ps
        (fun c2 car2 d2 hm hd2 => h c2 car2 d2 (List.mem_cons_of_mem _ hm) hd2)
      rw [carPass_cons_none hdid]
      refine ⟨hr.1, ?_⟩
      simp only [occC, List.map_cons]
      rw [List.cons.injEq]
      exact ⟨rfl, hr.2⟩
    | some drv =>
      have hds : (alookup drv ps).isSome = true :=
        h cid car drv (List.mem_cons_self _ _) hdid
      cases hpl : alookup drv ps with
      | none => rw [hpl] at hds; simp at hds
      | some pl =>
        have hps1 : occP (aupdate drv
            (fun d => { d with pInputs := pl.pInputs.tail }) ps) = occP ps :=
          occP_aupdate drv (fun d => { d with pInputs := pl.pInputs.tail })
            (fun a => ⟨rfl, rfl⟩) ps
        have hr := ih (aupdate drv (fun d => { d with pInputs := pl.pInputs.tail }) ps)
          (fun c2 car2 d2 hm hd2 => by
            rw [lookup_isSome_of_occP hps1 d2]
            exact h c2 car2 d2 (List.mem_cons_of_mem _ hm) hd2)
        rw [carPass_cons_some hdid hpl]
        refine ⟨hr.1.trans hps1, ?_⟩
        simp only [occC, List.map_cons]
        rw [List.cons.injEq]
        refine ⟨?_, hr.2⟩
        rw [Prod.mk.injEq]
        exact ⟨rfl, by rw [carStep_dId, hdid]⟩

lemma simulatePhysics_occ (tr : Trig) (dt : ℚ) {st : ServerState}
    (h : OccInv st) :
    occP (simulatePhysics tr dt st).players = occP st.players ∧
    occC (simulatePhysics tr dt st).cars = occC st.cars := by
  have hph : occP (phase1 tr dt st.players) = occP st.players :=
    occP_phase1 tr dt st.players
  have hcp := carPass_occ tr dt st.cars (phase1 tr dt st.players)
    (fun cid car drv hm hdid => by
      have hcar : alookup cid st.cars = some car := mem_alookup h.cn hm
      obtain ⟨pl, hpl, _, _⟩ := h.drv cid car drv hcar hdid
      rw [lookup_isSome_of_occP hph drv, hpl]
      rfl)
  exact ⟨hcp.1.trans hph, hcp.2⟩

lemma occInv_tick {tr : Trig} {dt : ℚ} {st : ServerState} (h : OccInv st) :
    OccInv (simulatePhysics tr dt st) := by
  have hocc := simulatePhysics_occ tr dt h
  exact occInv_transfer hocc.1.symm hocc.2.symm h

lemma occInv_init : OccInv initState := by
  constructor
  · exact List.nodup_nil
  · simp [keysNodup, initState]
  · intro cid car hcar
    simp only [initState, alookup] at hcar
    by_cases h : car1Id = cid
    · exact h.symm
    · rw [if_neg h] at hcar
      exact Option.noConfusion hcar
  · intro cid car pid hcar hdid
    simp only [initState, alookup] at hcar
    by_cases h : car1Id = cid
    · rw [if_pos h] at hcar
      rw [← Option.some.inj hcar] at hdid
      exact Option.noConfusion hdid
    · rw [if_neg h] at hcar
      exact Option.noConfusion hcar
  · intro pid pl hpl
    simp [initState, alookup] at hpl

lemma occInv_connect {st : ServerState} {pid : String} {pos : Vec3}
    (h : OccInv st) (hf : alookup pid st.players = none) :
    OccInv (connectPlayer pid pos st) := by
  obtain ⟨pn, cn, dom, drv, ref⟩ := h
  constructor
  · show keysNodup (st.players ++ [(pid, freshPlayer pos)])
    exact keysNodup_append_fresh pn hf
  · exact cn
  · exact dom
  · intro cid car pid2 hcar hdid
    obtain ⟨pl, hpl, hd, hv⟩ := drv cid car pid2 hcar hdid
    exact ⟨pl, alookup_append_some hpl, hd, hv⟩
  · intro pid2 pl hpl hd
    rcases alookup_append_cases hpl with h' | ⟨_, _, hw⟩
    · exact ref pid2 pl h' hd
    · subst hw
      simp [freshPlayer] at hd

lemma occInv_input {st : ServerState} {pid : String} {inp : InputCmd}
    (h : OccInv st) : OccInv (clientInputMsg pid inp st) := by
  unfold clientInputMsg
  cases hp : alookup pid st.players with
  | none => exact h
  | some pl =>
    exact occInv_transfer
      (occP_aupdate pid (fun q => { q with pInputs := q.pInputs ++ [inp] })
        (fun a => ⟨rfl, rfl⟩) st.players).symm rfl h

lemma occInv_enter_core {st st2 : ServerState} {pid cid : String} {pl : Player}
    {car : Car}
    (h : OccInv st)
    (hp : alookup pid st.players = some pl)
    (hc : alookup cid st.cars = some car)
    (hd : car.dId = none)
    (h2p : st2.players = aupdate pid
      (fun q => { q with d := true, vId := some cid, p := car.p }) st.players)
    (h2c : st2.cars = aupdate cid
      (fun c => { c with dId := some pid }) st.cars) :
    OccInv st2 := by
  have hnodrive : ∀ q pl2, alookup q st.players = some pl2 → pl2.d = true → False := by
    intro q pl2 hq hdq
    obtain ⟨cid2, car2, hv2, hc2, hdid2⟩ := h.ref q pl2 hq hdq
    have h1 : cid2 = car1Id := h.dom cid2 car2 hc2
    have h2 : cid = car1Id := h.dom cid car hc
    rw [h1, ← h2] at hc2
    rw [hc] at hc2
    rw [← Option.some.inj hc2] at hdid2
    rw [hd] at hdid2
    exact Option.noConfusion hdid2
  constructor
  · rw [h2p]
    exact keysNodup_aupdate h.pn
  · rw [h2c]
    exact keysNodup_aupdate h.cn
  · intro cid2 car2 hcar2
    rw [h2c] at hcar2
    by_cases hcc : cid2 = cid
    · rw [hcc]
      exact h.dom cid car hc
    · rw [alookup_aupdate_ne hcc] at hcar2
      exact h.dom cid2 car2 hcar2
  · intro cid2 car2 q hcar2 hdid2
    rw [h2c] at hcar2
    by_cases hcc : cid2 = cid
    · subst hcc
      rw [alookup_aupdate_self, hc] at hcar2
      simp only [Option.map_some', Option.some.injEq] at hcar2
      rw [← hcar2] at hdid2
      have hq : pid = q := Option.some.inj hdid2
      subst hq
      refine ⟨{ pl with d := true, vId := some cid2, p := car.p }, ?_, rfl, rfl⟩
      rw [h2p, alookup_aupdate_self, hp]
      rfl
    · rw [alookup_aupdate_ne hcc] at hcar2
      have h1 : cid2 = car1Id := h.dom cid2 car2 hcar2
      have h2 : cid = car1Id := h.dom cid car hc
      exact absurd (h1.trans h2.symm) hcc
  · intro q pl2 hq2 hd2
    rw [h2p] at hq2
    by_cases hqq : q = pid
    · subst hqq
      rw [alookup_aupdate_self, hp] at hq2
      simp only [Option.map_some', Option.some.injEq] at hq2
      refine ⟨cid, { car with dId := some q }, ?_, ?_, rfl⟩
      · rw [← hq2]
      · rw [h2c, alookup_aupdate_self, hc]
        rfl
    · rw [alookup_aupdate_ne hqq] at hq2
      exact (hnodrive q pl2 hq2 hd2).elim

lemma occInv_enter {st : ServerState} {pid cid : String}
    (h : OccInv st) : OccInv (enterVehicle pid cid st) := by
  cases hp : alookup pid st.players with
  | none => simpa [enterVehicle, hp] using h
  | some pl =>
    cases hc : alookup cid st.cars with
    | none => simpa [enterVehicle, hp, hc] using h
    | some car =>
      by_cases hd : car.dId = none
      · exact occInv_enter_core h hp hc hd
          (by simp [enterVehicle, hp, hc, hd]) (by simp [enterVehicle, hp, hc, hd])
      · simpa [enterVehicle, hp, hc, hd] using h

lemma occInv_exit_core {st st2 : ServerState} {pid cid : String} {pl : Player}
    {car : Car}
    (h : OccInv st)
    (hp : alookup pid st.players = some pl)
    (hc : alookup cid st.cars = some car)
    (hdid : car.dId = some pid)
    (h2p : st2.players = aupdate pid
      (fun q => { q with d := false, vId := none, p := ⟨car.p.x + 2, 0, car.p.z + 2⟩ }) st.players)
    (h2c : st2.cars = aupdate cid
      (fun c => { c with dId := none }) st.cars) :
    OccInv st2 := by
  constructor
  · rw [h2p]
    exact keysNodup_aupdate h.pn
  · rw [h2c]
    exact keysNodup_aupdate h.cn
  · intro cid2 car2 hcar2
    rw [h2c] at hcar2
    by_cases hcc : cid2 = cid
    · rw [hcc]
      exact h.dom cid car hc
    · rw [alookup_aupdate_ne hcc] at hcar2
      exact h.dom cid2 car2 hcar2
  · intro cid2 car2 q hcar2 hdid2
    rw [h2c] at hcar2
    by_cases hcc : cid2 = cid
    · subst hcc
      rw [alookup_aupdate_self, hc] at hcar2
      simp only [Option.map_some', Option.some.injEq] at hcar2
      rw [← hcar2] at hdid2
      simp at hdid2
    · rw [alookup_aupdate_ne hcc] at hcar2
      have h1 : cid2 = car1Id := h.dom cid2 car2 hcar2
      have h2 : cid = car1Id := h.dom cid car hc
      exact absurd (h1.trans h2.symm) hcc
  · intro q pl2 hq2 hd2
    rw [h2p] at hq2
    by_cases hqq : q = pid
    · subst hqq
      rw [alookup_aupdate_self, hp] at hq2
      simp only [Option.map_some', Option.some.injEq] at hq2
      rw [← hq2] at hd2
      simp at hd2
    · rw [alookup_aupdate_ne hqq] at hq2
      obtain ⟨cid2, car2, hv2, hc2, hdid2⟩ := h.ref q pl2 hq2 hd2
      have h1 : cid2 = car1Id := h.dom cid2 car2 hc2
      have h2 : cid = car1Id := h.dom cid car hc
      rw [h1, ← h2] at hc2
      rw [hc] at hc2
      rw [← Option.some.inj hc2] at hdid2
      rw [hdid] at hdid2
      exact absurd (Option.some.inj hdid2).symm hqq

lemma occInv_exit {st : ServerState} {pid : String}
    (h : OccInv st) : OccInv (exitVehicle pid st) := by
  cases hp : alookup pid st.players with
  | none => simpa [exitVehicle, hp] using h
  | some pl =>
    cases hv : pl.vId with
    | none => simpa [exitVehicle, hp, hv] using h
    | some cid =>
      cases hc : alookup cid st.cars with
      | none => simpa [exitVehicle, hp, hv, hc] using h
      | some car =>
        by_cases hdid : car.dId = some pid
        · exact occInv_exit_core h hp hc hdid
            (by simp [exitVehicle, hp, hv, hc, hdid])
            (by simp [exitVehicle, hp, hv, hc, hdid])
        · simpa [exitVehicle, hp, hv, hc, hdid] using h

lemma occInv_disc_keep {st st2 : ServerState} (pid : String)
    (h : OccInv st)
    (h2p : st2.players = aerase pid st.players)
    (h2c : st2.cars = st.cars)
    (hnd : ∀ pl, alookup pid st.players = some pl → pl.d = false) :
    OccInv st2 := by
  constructor
  · rw [h2p]
    exact keysNodup_aerase h.pn
  · rw [h2c]
    exact h.cn
  · intro cid2 car2 hcar2
    rw [h2c] at hcar2
    exact h.dom cid2 car2 hcar2
  · intro cid2 car2 q hcar2 hdid2
    rw [h2c] at hcar2
    obtain ⟨pl2, hpl2, hd2, hv2⟩ := h.drv cid2 car2 q hcar2 hdid2
    have hqq : q ≠ pid := by
      intro he
      rw [he] at hpl2
      rw [hnd pl2 hpl2] at hd2
      exact Bool.noConfusion hd2
    refine ⟨pl2, ?_, hd2, hv2⟩
    rw [h2p, alookup_aerase_ne hqq]
    exact hpl2
  · intro q pl2 hq2 hd2
    rw [h2p] at hq2
    have hqq : q ≠ pid := by
      intro he
      rw [he, alookup_aerase_self] at hq2
      exact Option.noConfusion hq2
    rw [alookup_aerase_ne hqq] at hq2
    obtain ⟨cid2, car2, hv2, hc2, hdid2⟩ := h.ref q pl2 hq2 hd2
    refine ⟨cid2, car2, hv2, ?_, hdid2⟩
    rw [h2c]
    exact hc2

lemma occInv_disc_core {st st2 : ServerState} {pid cid : String} {pl : Player}
    {car : Car}
    (h : OccInv st)
    (hp : alookup pid st.players = some pl)
    (hc : alookup cid st.cars = some car)
    (hdid : car.dId = some pid)
    (h2p : st2.players = aerase pid st.players)
    (h2c : st2.cars = aupdate cid (fun c => { c with dId := none }) st.cars) :
    OccInv st2 := by
  constructor
  · rw [h2p]
    exact keysNodup_aerase h.pn
  · rw [h2c]
    exact keysNodup_aupdate h.cn
  · intro cid2 car2 hcar2
    rw [h2c] at hcar2
    by_cases hcc : cid2 = cid
    · rw [hcc]
      exact h.dom cid car hc
    · rw [alookup_aupdate_ne hcc] at hcar2
      exact h.dom cid2 car2 hcar2
  · intro cid2 car2 q hcar2 hdid2
    rw [h2c] at hcar2
    by_cases hcc : cid2 = cid
    · subst hcc
      rw [alookup_aupdate_self, hc] at hcar2
      simp only [Option.map_some', Option.some.injEq] at hcar2
      rw [← hcar2] at hdid2
      simp at hdid2
    · rw [alookup_aupdate_ne hcc] at hcar2
      have h1 : cid2 = car1Id := h.dom cid2 car2 hcar2
      have h2 : cid = car1Id := h.dom cid car hc
      exact absurd (h1.trans h2.symm) hcc
  · intro q pl2 hq2 hd2
    rw [h2p] at hq2
    have hqq : q ≠ pid := by
      intro he
      rw [he, alookup_aerase_self] at hq2
      exact Option.noConfusion hq2
    rw [alookup_aerase_ne hqq] at hq2
    obtain ⟨cid2, car2, hv2, hc2, hdid2⟩ := h.ref q pl2 hq2 hd2
    have h1 : cid2 = car1Id := h.dom cid2 car2 hc2
    have h2 : cid = car1Id := h.dom cid car hc
    rw [h1, ← h2] at hc2
    rw [hc] at hc2
    rw [← Option.some.inj hc2] at hdid2
    rw [hdid] at hdid2
    exact absurd (Option.some.inj hdid2).symm hqq

lemma occInv_disc {st : ServerState} {pid : String}
    (h : OccInv st) : OccInv (disconnectPlayer pid st) := by
  cases hp : alookup pid st.players with
  | none =>
    refine occInv_disc_keep pid h (by simp [disconnectPlayer, hp]) (by simp [disconnectPlayer, hp]) ?_
    intro pl hp2
    rw [hp] at hp2
    exact Option.noConfusion hp2
  | some pl =>
    cases hdval : pl.d with
    | false =>
      refine occInv_disc_keep pid h (by simp [disconnectPlayer, hp])
        (by simp [disconnectPlayer, hp, hdval]) ?_
      intro pl2 hp2
      rw [hp] at hp2
      rw [← Option.some.inj hp2]
      exact hdval
    | true =>
      obtain ⟨cid, car, hv, hc, hdid⟩ := h.ref pid pl hp hdval
      exact occInv_disc_core h hp hc hdid
        (by simp [disconnectPlayer, hp])
        (by simp [disconnectPlayer, hp, hdval, hv, hc])

lemma occInv_reachable : ∀ {s : ServerState}, ReachableState s → OccInv s := by
  intro s h
  induction h with
  | init => exact occInv_init
  | connect pid pos _ hf ih => exact occInv_connect ih hf
  | input pid inp _ ih => exact occInv_input ih
  | enter pid cid _ ih => exact occInv_enter ih
  | leave pid _ ih => exact occInv_exit ih
  | disc pid _ ih => exact occInv_disc ih
  | tick tr dt _ ih => exact occInv_tick ih

lemma keysNodup_filter {α : Type} (p : String × α → Bool)
    {l : List (String × α)} (h : keysNodup l) : keysNodup (l.filter p) := by
  unfold keysNodup at h ⊢
  exact List.Nodup.sublist (List.Sublist.map Prod.fst (List.filter_sublist l)) h

lemma length_le_one_of_same_key {α : Type} {l : List (String × α)} (p : String)
    (hn : keysNodup l) (hall : ∀ e ∈ l, e.1 = p) : l.length ≤ 1 := by
  cases l with
  | nil => simp
  | cons a r =>
    cases r with
    | nil => simp
    | cons b r2 =>
      exfalso
      have ha : a.1 = p := hall a (List.mem_cons_self _ _)
      have hb : b.1 = p := hall b (List.mem_cons_of_mem _ (List.mem_cons_self _ _))
      have hn' : (a.1 :: b.1 :: r2.map Prod.fst).Nodup := hn
      rw [List.nodup_cons] at hn'
      exact hn'.1 (by rw [ha, ← hb]; exact List.mem_cons_self _ _)

lemma occupancyOK_of_occInv {st : ServerState} (h : OccInv st) :
    OccupancyOK st := by
  intro cid car hcar
  have hmain : ∀ e, e ∈ st.players.filter
      (fun e => e.2.d && decide (e.2.vId = some cid)) → car.dId = some e.1 := by
    intro e hmem
    rw [List.mem_filter] at hmem
    obtain ⟨hmem, hpred⟩ := hmem
    rw [Bool.and_eq_true] at hpred
    have hd : e.2.d = true := hpred.1
    have hv : e.2.vId = some cid := of_decide_eq_true hpred.2
    obtain ⟨q, pl⟩ := e
    have hq : alookup q st.players = some pl := mem_alookup h.pn hmem
    obtain ⟨cid2, car2, hv2, hc2, hdid2⟩ := h.ref q pl hq hd
    rw [hv] at hv2
    rw [← Option.some.inj hv2] at hc2
    rw [hcar] at hc2
    rw [← Option.some.inj hc2] at hdid2
    exact hdid2
  cases hdid : car.dId with
  | some p =>
    have hone : countRefs cid st.players = 1 := by
      obtain ⟨pl, hpl, hd, hv⟩ := h.drv cid car p hcar hdid
      have hmemf : (p, pl) ∈ st.players.filter
          (fun e => e.2.d && decide (e.2.vId = some cid)) := by
        rw [List.mem_filter]
        refine ⟨alookup_mem hpl, ?_⟩
        rw [Bool.and_eq_true]
        exact ⟨hd, decide_eq_true hv⟩
      have hge : 0 < countRefs cid st.players := by
        unfold countRefs
        exact List.length_pos_of_mem hmemf
      have hle : countRefs cid st.players ≤ 1 := by
        unfold countRefs
        refine length_le_one_of_same_key p (keysNodup_filter _ h.pn) ?_
        intro e he
        have := hmain e he
        rw [hdid] at this
        exact (Option.some.inj this).symm
      omega
    refine ⟨⟨fun _ => hone, fun _ => rfl⟩, ?_⟩
    rw [hone]
  | none =>
    have hzero : countRefs cid st.players = 0 := by
      unfold countRefs
      rw [List.length_eq_zero, List.filter_eq_nil]
      intro e hmem hpred
      have hmemf : e ∈ st.players.filter
          (fun e => e.2.d && decide (e.2.vId = some cid)) :=
        List.mem_filter.mpr ⟨hmem, hpred⟩
      have := hmain e hmemf
      rw [hdid] at this
      exact Option.noConfusion this
    constructor
    · constructor
      · intro hs
        exact Bool.noConfusion hs
      · intro h1
        rw [hzero] at h1
        exact absurd h1 (by omega)
    · rw [hzero]
      omega

/-- Claim C2.  In every server state reachable from the initial state
through the socket handlers (connect with a fresh socket id, clientInput,
enterVehicle, exitVehicle, disconnect) and the physics tick, every vehicle
has at most one driver, and a vehicle has a driver (`driverId` set) iff
exactly one PlayerState references it via `vehicleId` with
`isDriving = true`; in particular every such handler sequence preserves the
invariant. -/
theorem c2_occupancy_exclusivity (s : ServerState) (h : ReachableState s) :
    OccupancyOK s :=
  occupancyOK_of_occInv (occInv_reachable h)

/-- Witness for `c2_occupancy_exclusivity`: the state reached by connecting
`p1` and entering the car. -/
theorem c2_occupancy_exclusivity_witness :
    OccupancyOK (enterVehicle p1Id car1Id
      (connectPlayer p1Id ⟨0, 0, 0⟩ initState)) :=
  c2_occupancy_exclusivity _
    (ReachableState.enter p1Id car1Id
      (ReachableState.connect p1Id ⟨0, 0, 0⟩ ReachableState.init rfl))
